import Mathlib

/-!
Shallow embedding of `src/app.py` (NGC Assignment Tracker), a Streamlit
single-user task tracker.  The session state consists of a list of
assignment records (`st.session_state.assignments`) and an id counter
(`st.session_state.assignment_counter`).  Records are Python dicts; here
they are structures.  Timestamps and calendar dates are stored by the
program as strings (`%Y-%m-%d` and `%Y-%m-%d %H:%M`) and compared after
parsing (`pd.to_datetime`); since lexicographic order of those formats
agrees with chronological order, dates/timestamps are modelled as
integers (e.g. minutes since an epoch).  Python string truthiness
(`if title`) is modelled as `≠ ""`.  The `id` field is `Option Int`
because an imported JSON object may lack the `id` key (`a['id']` then
raises `KeyError`); every record built by the program itself carries
`some _`.
-/

/-- Fixed assignee enumeration, `src/app.py` lines 25-32. -/
def CHIEF_ENGINEERS : List String :=
  ["Chief Engineer (Substation Design)",
   "Chief Engineer (Transmission Line Design)",
   "Chief Engineer (Telecom)",
   "Chief Engineer (Scada-III)",
   "Chief Engineer (Protection & Control)",
   "Chief Engineer (Standards & Specification)"]

/-- Priority enumeration, line 35. -/
def PRIORITY_LEVELS : List String := ["Low", "Medium", "High", "Critical"]

/-- Status enumeration, line 38. -/
def STATUS_OPTIONS : List String :=
  ["Not Started", "In Progress", "Under Review", "Completed", "On Hold"]

/-- One entry of a record's `comments` list: the dict
`{'date': ..., 'comment': ...}` appended at lines 319-322. -/
structure CommentEntry where
  date : Int
  comment : String
deriving DecidableEq

/-- An assignment record: the dict built at lines 132-147.  `id` is
`Option Int`: `none` models a parsed JSON object whose `id` key is
absent (possible only through import, which does not validate). -/
structure Assignment where
  id : Option Int
  title : String
  assigned_to : String
  priority : String
  status : String
  category : String
  description : String
  deliverables : String
  due_date : Int
  created_date : Int
  estimated_hours : Int
  actual_hours : Int
  progress_percentage : Int
  comments : List CommentEntry
deriving DecidableEq

/-- The mutable session state, lines 18-22. -/
structure SessionState where
  assignments : List Assignment
  assignment_counter : Int
deriving DecidableEq

/-- Initial session state: empty store, counter 1 (lines 18-22). -/
def initState : SessionState := { assignments := [], assignment_counter := 1 }

/-- The input gathered by the creation form (lines 106-126): `now` is
`datetime.now()` at submission time. -/
structure CreateInput where
  title : String
  assigned_to : String
  priority : String
  due_date : Int
  category : String
  estimated_hours : Int
  status : String
  description : String
  deliverables : String
  now : Int
deriving DecidableEq

/-- The submit branch of `create_assignment` (lines 130-154): if
`title and assigned_to and description` are all truthy, append the new
record (id = counter, actual_hours = 0, progress = 0, comments = [])
and increment the counter, reporting success; otherwise report an error
and leave the state untouched.  The returned `Bool` is `true` for the
`st.success` branch and `false` for the `st.error` branch. -/
def create_assignment (s : SessionState) (inp : CreateInput) : SessionState × Bool :=
  if inp.title ≠ "" ∧ inp.assigned_to ≠ "" ∧ inp.description ≠ "" then
    let new_assignment : Assignment :=
      { id := some s.assignment_counter
        title := inp.title
        assigned_to := inp.assigned_to
        priority := inp.priority
        status := inp.status
        category := inp.category
        description := inp.description
        deliverables := inp.deliverables
        due_date := inp.due_date
        created_date := inp.now
        estimated_hours := inp.estimated_hours
        actual_hours := 0
        progress_percentage := 0
        comments := [] }
    ({ assignments := s.assignments ++ [new_assignment],
       assignment_counter := s.assignment_counter + 1 }, true)
  else (s, false)

/-- The update loop of `manage_assignments` (lines 310-323): walk the
store in order, rewrite `status`, `progress_percentage` and
`actual_hours` of the first record whose id equals the target, append a
comment when the comment text is truthy, then `break`.  Records before
the first match and all records after it are returned unchanged. -/
def updateFirst (target : Int) (new_status : String) (new_progress : Int)
    (new_hours : Int) (comment : String) (now : Int) :
    List Assignment → List Assignment
  | [] => []
  | a :: rest =>
    if a.id = some target then
      { a with status := new_status
               progress_percentage := new_progress
               actual_hours := new_hours
               comments := if comment ≠ "" then
                   a.comments ++ [{ date := now, comment := comment }]
                 else a.comments } :: rest
    else a :: updateFirst target new_status new_progress new_hours comment now rest

/-- The whole submit handler at lines 308-326: run the loop, then show
`st.success("Assignment updated successfully!")` unconditionally — the
source has no not-found branch and raises nothing. -/
def manage_update (assignments : List Assignment) (target : Int)
    (new_status : String) (new_progress : Int) (new_hours : Int)
    (comment : String) (now : Int) : List Assignment × String :=
  (updateFirst target new_status new_progress new_hours comment now assignments,
   "Assignment updated successfully!")

/-- The filter block of `manage_assignments` (lines 263-271): three
sequential dataframe filters; `none` models the "All" choice of the
corresponding selectbox. -/
def filter_assignments (fe fs fp : Option String) (rs : List Assignment) :
    List Assignment :=
  let d1 := match fe with
    | none => rs
    | some e => rs.filter (fun a => decide (a.assigned_to = e))
  let d2 := match fs with
    | none => d1
    | some x => d1.filter (fun a => decide (a.status = x))
  match fp with
  | none => d2
  | some p => d2.filter (fun a => decide (a.priority = p))

/-- Spec-side conjunction of the three optional filters, used to state
that the sequential filtering has AND semantics. -/
def matchesFilters (fe fs fp : Option String) (a : Assignment) : Bool :=
  (match fe with | none => true | some e => decide (a.assigned_to = e)) &&
  (match fs with | none => true | some x => decide (a.status = x)) &&
  (match fp with | none => true | some p => decide (a.priority = p))

/-- The overdue metric of `dashboard`, lines 182-183:
`len(df[pd.to_datetime(df['due_date']) < datetime.now()])` — records
whose due date parses to an instant strictly before `now`, with no
condition on status. -/
def overdueCount (rs : List Assignment) (now : Int) : Nat :=
  (rs.filter (fun a => decide (a.due_date < now))).length

/-- The JSON document built by the export handler, lines 450-453. -/
structure ExportDoc where
  assignments : List Assignment
  export_date : Int
deriving DecidableEq

/-- The export handler, lines 448-461: a document is produced only when
the store is non-empty (`if st.session_state.assignments:`); an empty
store yields the "No data to export" warning and no document. -/
def exportSnapshot (s : SessionState) (now : Int) : Option ExportDoc :=
  if s.assignments ≠ [] then
    some { assignments := s.assignments, export_date := now }
  else none

/-- The possible outcomes of parsing an uploaded file, as the handler at
lines 463-468 distinguishes them: `json.load` raises (`badJson`), the
parsed value has no `assignments` key (`noAssignmentsKey`), or the key
holds a list of record objects. -/
inductive ImportDoc where
  | badJson
  | noAssignmentsKey
  | records (rs : List Assignment)
deriving DecidableEq

/-- Python's `max` over a non-empty list.  The `[]` case never arises in
`importSnapshot` (the empty store takes the `else 1` branch of the
ternary before `max` is evaluated); its value here is arbitrary. -/
def pyMax : List Int → Int
  | [] => 0
  | x :: xs => xs.foldl max x

/-- `[a['id'] for a in assignments]`: `none` models the `KeyError`
raised when some record lacks the `id` key. -/
def idsOf (rs : List Assignment) : Option (List Int) := rs.mapM (·.id)

/-- The import handler, lines 463-472.  Inside `try`: the store is
assigned first (line 467), then the counter is recomputed (line 468) as
`max([a['id'] for a in ...]) + 1 if ... else 1`.  A `KeyError` during
the comprehension is caught at line 471 AFTER the store has already
been replaced, so that failure leaves the new records in the store with
the old counter.  `badJson` / `noAssignmentsKey` failures occur before
any assignment and leave the state untouched.  The `Bool` is `true` for
the `st.sidebar.success` path, `false` for `st.sidebar.error`. -/
def importSnapshot (doc : ImportDoc) (s : SessionState) : SessionState × Bool :=
  match doc with
  | .badJson => (s, false)
  | .noAssignmentsKey => (s, false)
  | .records rs =>
    let s1 : SessionState := { s with assignments := rs }
    if rs.isEmpty then ({ s1 with assignment_counter := 1 }, true)
    else
      match idsOf rs with
      | none => (s1, false)
      | some ids => ({ s1 with assignment_counter := pyMax ids + 1 }, true)

/-- A session consisting only of creation submissions, folded over the
state. -/
def runCreates (inputs : List CreateInput) (s : SessionState) : SessionState :=
  inputs.foldl (fun t inp => (create_assignment t inp).1) s

/-- A creation input that passes the truthiness check of line 131. -/
def ValidInput (inp : CreateInput) : Prop :=
  inp.title ≠ "" ∧ inp.assigned_to ≠ "" ∧ inp.description ≠ ""

/-- `idBelow i c` holds when the id is present and strictly below `c`. -/
def idBelow (i : Option Int) (c : Int) : Bool :=
  match i with
  | none => false
  | some n => decide (n < c)

/-- Store/counter invariant: every record carries an id strictly below
the counter, and ids are pairwise distinct. -/
def IdInv (s : SessionState) : Prop :=
  (∀ a ∈ s.assignments, idBelow a.id s.assignment_counter = true) ∧
  List.Pairwise (fun a b => a.id ≠ b.id) s.assignments

/-- Every record's progress lies in [0, 100]. -/
def ProgressInRange (rs : List Assignment) : Prop :=
  ∀ a ∈ rs, 0 ≤ a.progress_percentage ∧ a.progress_percentage ≤ 100

instance : DecidablePred ValidInput := fun inp => by
  unfold ValidInput; infer_instance

instance (s : SessionState) : Decidable (IdInv s) := by
  unfold IdInv; infer_instance

instance (rs : List Assignment) : Decidable (ProgressInRange rs) := by
  unfold ProgressInRange; infer_instance

/-! Concrete records used to instantiate the theorems. -/

/-- A sample well-formed record, as the creation form would build it. -/
def sampleA : Assignment :=
  { id := some 1
    title := "Review Spec"
    assigned_to := "Chief Engineer (Telecom)"
    priority := "High"
    status := "Not Started"
    category := "Design Review"
    description := "x"
    deliverables := ""
    due_date := 5
    created_date := 0
    estimated_hours := 8
    actual_hours := 0
    progress_percentage := 0
    comments := [] }

/-- A second sample record with a distinct id. -/
def sampleB : Assignment :=
  { sampleA with id := some 2, title := "Draft Report", status := "In Progress",
                 priority := "Low", progress_percentage := 40, due_date := 20 }

/-- A completed record whose due date is in the past relative to `now = 10`. -/
def sampleC : Assignment :=
  { sampleA with id := some 3, status := "Completed", due_date := 3,
                 progress_percentage := 100 }

/-- A parsed import record whose `id` key is absent. -/
def noIdRec : Assignment := { sampleA with id := none }

/-- An import record carrying an out-of-range progress value. -/
def overRec : Assignment := { sampleA with id := some 7, progress_percentage := 150 }

/-- A non-trivial session state to exercise import failures against. -/
def seededState : SessionState :=
  { assignments := [sampleA, sampleB], assignment_counter := 5 }

/-- C7: `overdueCount` counts exactly the records whose due date is strictly
before `now`: it equals the count of the due-date predicate, it is invariant
under arbitrarily rewriting every record's status, and appending a record
with a past due date increments it even when that record's status is
`Completed`. -/
theorem overdue_counts_by_due_date_only (rs : List Assignment) (now : Int) :
    overdueCount rs now = rs.countP (fun a => decide (a.due_date < now)) ∧
    (∀ f : Assignment → String,
      overdueCount (rs.map (fun a => { a with status := f a })) now
        = overdueCount rs now) ∧
    (∀ a : Assignment, a.status = "Completed" → a.due_date < now →
      overdueCount (rs ++ [a]) now = overdueCount rs now + 1) := by
  refine ⟨(List.countP_eq_length_filter _ _).symm, ?_, ?_⟩
  · intro f
    unfold overdueCount
    rw [List.filter_map]
    simp only [List.length_map]
    rfl
  · intro a _ hdue
    unfold overdueCount
    rw [List.filter_append]
    simp [hdue]

/-- C7 witness: the theorem applied at a concrete store and time; a
Completed record with past due date is counted. -/
theorem overdue_counts_by_due_date_only_witness :
    overdueCount [sampleA, sampleB] 10
      = List.countP (fun a => decide (a.due_date < 10)) [sampleA, sampleB] ∧
    overdueCount ([sampleA, sampleB] ++ [sampleC]) 10
      = overdueCount [sampleA, sampleB] 10 + 1 :=
  ⟨(overdue_counts_by_due_date_only [sampleA, sampleB] 10).1,
   (overdue_counts_by_due_date_only [sampleA, sampleB] 10).2.2 sampleC (by decide)
     (by decide)⟩

/-- C9: the three sequential filters have AND semantics over the provided
filters and preserve store order; the empty filter set returns the full
store unchanged; a status filter matching no record returns the empty
list. -/
theorem filter_and_semantics (fe fs fp : Option String) (rs : List Assignment) :
    filter_assignments fe fs fp rs = rs.filter (matchesFilters fe fs fp) ∧
    filter_assignments none none none rs = rs ∧
    (∀ x, (∀ a ∈ rs, a.status ≠ x) →
      filter_assignments none (some x) none rs = []) := by
  refine ⟨?_, ?_, ?_⟩
  · unfold filter_assignments matchesFilters
    cases fe <;> cases fs <;> cases fp <;>
      simp [List.filter_filter, Bool.and_comm, Bool.and_assoc, Bool.and_left_comm]
  · show rs = rs
    rfl
  · intro x h
    show rs.filter (fun a => decide (a.status = x)) = []
    rw [List.filter_eq_nil_iff]
    intro a ha
    simp [h a ha]

/-- C9 witness: the theorem applied at a concrete filter combination and
store. -/
theorem filter_and_semantics_witness :
    filter_assignments none (some "Under Review") none [sampleA, sampleB] = [] ∧
    filter_assignments none none none [sampleA, sampleB] = [sampleA, sampleB] ∧
    filter_assignments (some "Chief Engineer (Telecom)") none (some "High")
        [sampleA, sampleB]
      = List.filter (matchesFilters (some "Chief Engineer (Telecom)") none
          (some "High")) [sampleA, sampleB] :=
  ⟨(filter_and_semantics none (some "Under Review") none [sampleA, sampleB]).2.2
      "Under Review" (by decide),
   (filter_and_semantics none none none [sampleA, sampleB]).2.1,
   (filter_and_semantics (some "Chief Engineer (Telecom)") none (some "High")
      [sampleA, sampleB]).1⟩

/-- Two records sharing id 1, as an unchecked import can produce. -/
def dupA : Assignment := { sampleA with title := "first copy" }

/-- Second record with the same id 1. -/
def dupB : Assignment := { sampleA with title := "second copy", status := "On Hold" }

/-- The update loop leaves a store without a matching id unchanged. -/
theorem updateFirst_no_match (t : Int) (ns : String) (np nh : Int)
    (c : String) (now : Int) (rs : List Assignment)
    (h : ∀ a ∈ rs, a.id ≠ some t) :
    updateFirst t ns np nh c now rs = rs := by
  induction rs with
  | nil => rfl
  | cons b bs ih =>
    have hb : ¬ b.id = some t := h b (by simp)
    simp only [updateFirst, if_neg hb, List.cons.injEq, true_and]
    exact ih (fun r hr => h r (by simp [hr]))

/-- The update loop rewrites exactly the first record whose id matches and
returns every other record untouched. -/
theorem updateFirst_first_match (pre post : List Assignment) (a : Assignment)
    (t : Int) (ns : String) (np nh : Int) (c : String) (now : Int)
    (hpre : ∀ r ∈ pre, r.id ≠ some t) (ha : a.id = some t) :
    updateFirst t ns np nh c now (pre ++ a :: post) =
      pre ++ { a with
               status := ns
               progress_percentage := np
               actual_hours := nh
               comments := if c ≠ "" then
                   a.comments ++ [{ date := now, comment := c }]
                 else a.comments } :: post := by
  induction pre with
  | nil => simp only [List.nil_append, updateFirst, if_pos ha]
  | cons b bs ih =>
    have hb : ¬ b.id = some t := hpre b (by simp)
    simp only [List.cons_append, updateFirst, if_neg hb, List.cons.injEq, true_and]
    exact ih (fun r hr => hpre r (by simp [hr]))

/-- C3 counterexample: updating an id that is absent from the store does not
fail at all — the handler leaves the store unchanged and still reports the
unconditional success message (the source defines no NotFoundError and has
no not-found branch). -/
theorem update_absent_id_cex :
    manage_update [sampleA] 2 "Completed" 50 3 "note" 9
      = ([sampleA], "Assignment updated successfully!") := by decide

/-- C3 amended: for every store and every id not present in it, the update
handler changes no record, and it completes reporting the success message
rather than failing with NotFoundError. -/
theorem update_absent_id_is_silent_noop (rs : List Assignment) (t : Int)
    (ns : String) (np nh : Int) (c : String) (now : Int)
    (h : ∀ a ∈ rs, a.id ≠ some t) :
    manage_update rs t ns np nh c now = (rs, "Assignment updated successfully!") := by
  unfold manage_update
  rw [updateFirst_no_match t ns np nh c now rs h]

/-- C3 witness: the amended theorem applied at a concrete store and absent
id. -/
theorem update_absent_id_is_silent_noop_witness :
    manage_update [sampleA, sampleB] 99 "On Hold" 10 1 "" 0
      = ([sampleA, sampleB], "Assignment updated successfully!") :=
  update_absent_id_is_silent_noop [sampleA, sampleB] 99 "On Hold" 10 1 "" 0
    (by decide)

/-- C8: a successful update rewrites only the supplied fields (status,
progress, actual hours, optional comment append) on the single matched
record, keeps that record's id, title, assigned_to, priority, category,
description, deliverables, due_date, created_date and estimated_hours, and
leaves every other record of the store unchanged; in particular, when the
submitted status, hours and comment repeat the current values (an update
supplying only progress), status, actual_hours and comments are
unchanged. -/
theorem update_changes_only_supplied_fields (pre post : List Assignment)
    (a : Assignment) (t : Int) (ns : String) (np nh : Int) (c : String)
    (now : Int) (hpre : ∀ r ∈ pre, r.id ≠ some t) (ha : a.id = some t) :
    ∃ a', updateFirst t ns np nh c now (pre ++ a :: post) = pre ++ a' :: post ∧
      a'.id = a.id ∧ a'.title = a.title ∧ a'.assigned_to = a.assigned_to ∧
      a'.priority = a.priority ∧ a'.category = a.category ∧
      a'.description = a.description ∧ a'.deliverables = a.deliverables ∧
      a'.due_date = a.due_date ∧ a'.created_date = a.created_date ∧
      a'.estimated_hours = a.estimated_hours ∧
      a'.status = ns ∧ a'.progress_percentage = np ∧ a'.actual_hours = nh ∧
      (c = "" → a'.comments = a.comments) ∧
      (c ≠ "" → a'.comments = a.comments ++ [{ date := now, comment := c }]) ∧
      (ns = a.status → nh = a.actual_hours → c = "" →
        a'.status = a.status ∧ a'.actual_hours = a.actual_hours ∧
        a'.comments = a.comments) := by
  refine ⟨_, updateFirst_first_match pre post a t ns np nh c now hpre ha,
    rfl, rfl, rfl, rfl, rfl, rfl, rfl, rfl, rfl, rfl, rfl, rfl, rfl,
    ?_, ?_, ?_⟩
  · intro hc
    simp [hc]
  · intro hc
    simp [hc]
  · intro h1 h2 h3
    exact ⟨h1, h2, by simp [h3]⟩

/-- C8 witness: the theorem applied at a concrete store, updating the
middle record with only a new progress value (status, hours and comment
resubmitted unchanged). -/
theorem update_changes_only_supplied_fields_witness :
    ∃ a', updateFirst 2 "In Progress" 80 0 "" 11 ([sampleA] ++ sampleB :: [sampleC])
        = [sampleA] ++ a' :: [sampleC] ∧
      a'.id = sampleB.id ∧ a'.title = sampleB.title ∧
      a'.assigned_to = sampleB.assigned_to ∧
      a'.priority = sampleB.priority ∧ a'.category = sampleB.category ∧
      a'.description = sampleB.description ∧
      a'.deliverables = sampleB.deliverables ∧
      a'.due_date = sampleB.due_date ∧ a'.created_date = sampleB.created_date ∧
      a'.estimated_hours = sampleB.estimated_hours ∧
      a'.status = "In Progress" ∧ a'.progress_percentage = 80 ∧
      a'.actual_hours = 0 ∧
      ("" = "" → a'.comments = sampleB.comments) ∧
      ("" ≠ "" → a'.comments = sampleB.comments ++ [{ date := 11, comment := "" }]) ∧
      ("In Progress" = sampleB.status → 0 = sampleB.actual_hours → "" = "" →
        a'.status = sampleB.status ∧ a'.actual_hours = sampleB.actual_hours ∧
        a'.comments = sampleB.comments) :=
  update_changes_only_supplied_fields [sampleA] [sampleC] sampleB 2
    "In Progress" 80 0 "" 11 (by decide) (by decide)

/-- C10: even in a store holding several records with the same id (which
the unchecked import permits), a successful update rewrites only
the first record in store order whose id matches: the prefix before it and
everything after it — later duplicates included — are returned exactly as
they were. -/
theorem update_touches_only_first_match (pre post : List Assignment)
    (a : Assignment) (t : Int) (ns : String) (np nh : Int) (c : String)
    (now : Int) (hpre : ∀ r ∈ pre, r.id ≠ some t) (ha : a.id = some t) :
    ∃ a', updateFirst t ns np nh c now (pre ++ a :: post) = pre ++ a' :: post :=
  ⟨_, updateFirst_first_match pre post a t ns np nh c now hpre ha⟩

/-- C10 witness: a store with two records sharing id 1; the update rewrites
the first and returns the duplicate behind it literally unchanged. -/
theorem update_touches_only_first_match_witness :
    ∃ a', updateFirst 1 "Completed" 100 2 "" 0 ([] ++ dupA :: [dupB])
      = [] ++ a' :: [dupB] :=
  update_touches_only_first_match [] [dupB] dupA 1 "Completed" 100 2 "" 0
    (by decide) (by decide)

/-- The record the creation form appends (lines 132-147). -/
def newRecord (s : SessionState) (inp : CreateInput) : Assignment :=
  { id := some s.assignment_counter
    title := inp.title
    assigned_to := inp.assigned_to
    priority := inp.priority
    status := inp.status
    category := inp.category
    description := inp.description
    deliverables := inp.deliverables
    due_date := inp.due_date
    created_date := inp.now
    estimated_hours := inp.estimated_hours
    actual_hours := 0
    progress_percentage := 0
    comments := [] }

/-- Evaluation of the create handler on input passing the truthiness
check. -/
theorem create_assignment_valid (s : SessionState) (inp : CreateInput)
    (h : ValidInput inp) :
    create_assignment s inp =
      ({ assignments := s.assignments ++ [newRecord s inp]
         assignment_counter := s.assignment_counter + 1 }, true) := by
  unfold ValidInput at h
  unfold create_assignment
  rw [if_pos h]
  rfl

/-- Evaluation of the create handler on input failing the truthiness
check. -/
theorem create_assignment_invalid (s : SessionState) (inp : CreateInput)
    (h : ¬ ValidInput inp) :
    create_assignment s inp = (s, false) := by
  unfold ValidInput at h
  unfold create_assignment
  rw [if_neg h]

/-- A creation input whose assigned_to is non-empty but not one of the six
fixed engineer roles. -/
def bogusInput : CreateInput :=
  { title := "x"
    assigned_to := "bogus"
    priority := "High"
    due_date := 30
    category := "Other"
    estimated_hours := 8
    status := "Not Started"
    description := "y"
    deliverables := ""
    now := 0 }

/-- A creation input with an empty title. -/
def emptyTitleInput : CreateInput := { bogusInput with title := "" }

/-- C4 counterexample: a non-empty assigned_to outside the fixed engineer
enumeration is not rejected — line 131 checks only Python string
truthiness — so creation succeeds, appends a record and advances the
counter. -/
theorem create_accepts_invalid_engineer_cex :
    "bogus" ∉ CHIEF_ENGINEERS ∧
    (create_assignment initState bogusInput).2 = true ∧
    (create_assignment initState bogusInput).1.assignments.length = 1 ∧
    (create_assignment initState bogusInput).1.assignment_counter = 2 := by
  decide

/-- C4 amended: creation fails — the error branch is taken, the store is
returned unchanged and the counter is not advanced — whenever the title,
the assigned_to or the description is the empty string; emptiness, not
membership in the enumerations, is all that is checked. -/
theorem create_empty_required_field_rejected (s : SessionState)
    (inp : CreateInput)
    (h : inp.title = "" ∨ inp.assigned_to = "" ∨ inp.description = "") :
    create_assignment s inp = (s, false) := by
  apply create_assignment_invalid
  unfold ValidInput
  rintro ⟨h1, h2, h3⟩
  rcases h with h | h | h
  · exact h1 h
  · exact h2 h
  · exact h3 h

/-- C4 witness: the amended theorem applied to an input with an empty
title. -/
theorem create_empty_required_field_rejected_witness :
    create_assignment seededState emptyTitleInput = (seededState, false) :=
  create_empty_required_field_rejected seededState emptyTitleInput
    (Or.inl (by decide))

/-- Creation preserves the progress-range invariant: the appended record
has progress 0. -/
theorem create_preserves_progress (s : SessionState) (inp : CreateInput)
    (hs : ProgressInRange s.assignments) :
    ProgressInRange (create_assignment s inp).1.assignments := by
  by_cases hv : ValidInput inp
  · rw [create_assignment_valid s inp hv]
    unfold ProgressInRange
    intro a ha
    rcases List.mem_append.mp ha with h | h
    · exact hs a h
    · rw [List.mem_singleton] at h
      subst h
      exact ⟨le_refl 0, show (0 : Int) ≤ 100 by norm_num⟩
  · rw [create_assignment_invalid s inp hv]
    exact hs

/-- The update loop preserves the progress-range invariant whenever the
submitted progress value lies in [0, 100] (the slider at line 298 admits
exactly that range). -/
theorem updateFirst_preserves_progress (t : Int) (ns : String) (np nh : Int)
    (c : String) (now : Int) (h0 : 0 ≤ np) (h1 : np ≤ 100) :
    ∀ rs : List Assignment, ProgressInRange rs →
      ProgressInRange (updateFirst t ns np nh c now rs) := by
  intro rs
  induction rs with
  | nil =>
    intro _
    unfold ProgressInRange
    intro a ha
    simp [updateFirst] at ha
  | cons b bs ih =>
    intro hr
    have hb : 0 ≤ b.progress_percentage ∧ b.progress_percentage ≤ 100 :=
      hr b (by simp)
    have hbs : ProgressInRange bs := fun a ha => hr a (by simp [ha])
    unfold updateFirst ProgressInRange
    by_cases hid : b.id = some t
    · rw [if_pos hid]
      intro a ha
      rcases List.mem_cons.mp ha with h | h
      · subst h
        exact ⟨h0, h1⟩
      · exact hbs a h
    · rw [if_neg hid]
      intro a ha
      rcases List.mem_cons.mp ha with h | h
      · subst h
        exact hb
      · exact ih hbs a h

/-- C5 amended: create and update keep every record's progress in [0, 100]
(create stamps 0; update writes the slider value, which the widget bounds
to that range) — but import, which validates nothing, does not. -/
theorem progress_in_range_after_create_and_update (s : SessionState)
    (inp : CreateInput) (rs : List Assignment) (t : Int) (ns : String)
    (np nh : Int) (c : String) (now : Int)
    (hs : ProgressInRange s.assignments) (hr : ProgressInRange rs)
    (h0 : 0 ≤ np) (h1 : np ≤ 100) :
    ProgressInRange (create_assignment s inp).1.assignments ∧
    ProgressInRange (updateFirst t ns np nh c now rs) :=
  ⟨create_preserves_progress s inp hs,
   updateFirst_preserves_progress t ns np nh c now h0 h1 rs hr⟩

/-- C5 witness: the amended theorem applied at a concrete state, creation
input and update. -/
theorem progress_in_range_after_create_and_update_witness :
    ProgressInRange (create_assignment seededState bogusInput).1.assignments ∧
    ProgressInRange (updateFirst 1 "In Progress" 70 2 "ok" 3 [sampleA, sampleB]) :=
  progress_in_range_after_create_and_update seededState bogusInput
    [sampleA, sampleB] 1 "In Progress" 70 2 "ok" 3 (by decide) (by decide)
    (by decide) (by decide)

/-- C5 counterexample: a successful import brings a record whose
progress_percentage is 150 into the store — the handler at lines 463-468
validates nothing — so the invariant does not hold after every import. -/
theorem import_breaks_progress_invariant_cex :
    (importSnapshot (.records [overRec]) seededState).2 = true ∧
    ¬ ProgressInRange
        (importSnapshot (.records [overRec]) seededState).1.assignments := by
  decide

/-- Creation preserves the id invariant: the appended record takes the
current counter as id, strictly above every stored id, and the counter
then moves past it. -/
theorem create_preserves_IdInv (s : SessionState) (inp : CreateInput)
    (h : IdInv s) : IdInv (create_assignment s inp).1 := by
  by_cases hv : ValidInput inp
  · rw [create_assignment_valid s inp hv]
    obtain ⟨hbound, hpair⟩ := h
    constructor
    · intro a ha
      rcases List.mem_append.mp ha with h' | h'
      · have hber := hbound a h'
        unfold idBelow at hber ⊢
        cases hid : a.id with
        | none => rw [hid] at hber; exact absurd hber (by simp)
        | some n =>
          rw [hid] at hber
          simp only [decide_eq_true_eq] at hber ⊢
          omega
      · rw [List.mem_singleton] at h'
        subst h'
        show idBelow (some s.assignment_counter) (s.assignment_counter + 1) = true
        unfold idBelow
        simp
    · rw [List.pairwise_append]
      refine ⟨hpair, List.pairwise_singleton _ _, ?_⟩
      intro a ha b hb'
      rw [List.mem_singleton] at hb'
      subst hb'
      have hber := hbound a ha
      unfold idBelow at hber
      cases hid : a.id with
      | none => rw [hid] at hber; exact absurd hber (by simp)
      | some n =>
        rw [hid] at hber
        simp only [decide_eq_true_eq] at hber
        show some n ≠ (newRecord s inp).id
        unfold newRecord
        simp only [ne_eq, Option.some.injEq]
        omega
  · rw [create_assignment_invalid s inp hv]
    exact h

/-- The id invariant holds after any sequence of creation submissions from
a state satisfying it. -/
theorem IdInv_runCreates (inputs : List CreateInput) :
    ∀ s : SessionState, IdInv s → IdInv (runCreates inputs s) := by
  induction inputs with
  | nil => exact fun s h => h
  | cons i rest ih =>
    intro s h
    exact ih (create_assignment s i).1 (create_preserves_IdInv s i h)

/-- C6: starting from the initial session state, any sequence of creation
submissions keeps the id invariant (every stored id strictly below the
counter, all ids pairwise distinct); each valid creation appends a record
whose id is the current counter, strictly greater than every previously
assigned id; and the counter never decreases across a creation. -/
theorem create_ids_monotone_unique :
    (∀ inputs : List CreateInput, IdInv (runCreates inputs initState)) ∧
    (∀ (s : SessionState) (inp : CreateInput), IdInv s → ValidInput inp →
      (create_assignment s inp).1.assignments
          = s.assignments ++ [newRecord s inp] ∧
      (newRecord s inp).id = some s.assignment_counter ∧
      ∀ a ∈ s.assignments, ∀ m : Int, a.id = some m → m < s.assignment_counter) ∧
    (∀ (s : SessionState) (inp : CreateInput),
      s.assignment_counter ≤ (create_assignment s inp).1.assignment_counter) := by
  refine ⟨?_, ?_, ?_⟩
  · intro inputs
    exact IdInv_runCreates inputs initState (by decide)
  · intro s inp hinv hval
    refine ⟨by rw [create_assignment_valid s inp hval], rfl, ?_⟩
    intro a ha m hm
    have hber := hinv.1 a ha
    unfold idBelow at hber
    rw [hm] at hber
    simpa using hber
  · intro s inp
    by_cases hv : ValidInput inp
    · rw [create_assignment_valid s inp hv]
      show s.assignment_counter ≤ s.assignment_counter + 1
      omega
    · rw [create_assignment_invalid s inp hv]

/-- C6 witness: the theorem applied at a concrete creation sequence and at
a concrete state and valid input. -/
theorem create_ids_monotone_unique_witness :
    IdInv (runCreates [bogusInput, bogusInput] initState) ∧
    (create_assignment seededState bogusInput).1.assignments
        = seededState.assignments ++ [newRecord seededState bogusInput] ∧
    (newRecord seededState bogusInput).id = some seededState.assignment_counter ∧
    seededState.assignment_counter
        ≤ (create_assignment seededState bogusInput).1.assignment_counter :=
  ⟨create_ids_monotone_unique.1 [bogusInput, bogusInput],
   (create_ids_monotone_unique.2.1 seededState bogusInput (by decide) (by decide)).1,
   (create_ids_monotone_unique.2.1 seededState bogusInput (by decide) (by decide)).2.1,
   create_ids_monotone_unique.2.2 seededState bogusInput⟩

/-- C1 counterexample: an import that fails while recomputing the counter
(here: the single record lacks the `id` key, so the comprehension at line
468 raises `KeyError`) has already replaced the store at line 467 — the
handler reports failure, yet the store is no longer what it was before the
call. -/
theorem import_failure_mutates_store_cex :
    (importSnapshot (.records [noIdRec]) seededState).2 = false ∧
    (importSnapshot (.records [noIdRec]) seededState).1.assignments
      ≠ seededState.assignments := by
  decide

/-- C1 amended: import failures at the parse step or at the missing
`assignments` key leave the session state exactly as it was; but a failure
raised while recomputing the counter from the records leaves the store
replaced by the incoming records with only the counter unchanged — import
is all-or-nothing only for the first two failure modes. -/
theorem import_failure_partial_mutation (s : SessionState) :
    (importSnapshot .badJson s) = (s, false) ∧
    (importSnapshot .noAssignmentsKey s) = (s, false) ∧
    (∀ rs : List Assignment, (importSnapshot (.records rs) s).2 = false →
      (importSnapshot (.records rs) s).1.assignments = rs ∧
      (importSnapshot (.records rs) s).1.assignment_counter
        = s.assignment_counter) := by
  refine ⟨rfl, rfl, ?_⟩
  intro rs hfail
  by_cases he : rs.isEmpty
  · simp [importSnapshot, he] at hfail
  · cases hio : idsOf rs with
    | some ids => simp [importSnapshot, he, hio] at hfail
    | none => simp [importSnapshot, he, hio]

/-- C1 witness: the amended theorem applied at a concrete state, for a
parse failure and for a counter-recomputation failure. -/
theorem import_failure_partial_mutation_witness :
    (importSnapshot .badJson seededState) = (seededState, false) ∧
    (importSnapshot (.records [noIdRec]) seededState).1.assignments = [noIdRec] ∧
    (importSnapshot (.records [noIdRec]) seededState).1.assignment_counter
      = seededState.assignment_counter :=
  ⟨(import_failure_partial_mutation seededState).1,
   ((import_failure_partial_mutation seededState).2.2 [noIdRec] (by decide)).1,
   ((import_failure_partial_mutation seededState).2.2 [noIdRec] (by decide)).2⟩

/-- C2 counterexample: the empty store produces no export document at all —
the handler takes the "No data to export" warning branch — so the
export→import round trip is not defined, let alone the identity, at the
empty store state. -/
theorem export_empty_store_produces_nothing_cex :
    exportSnapshot initState 0 = none ∧ initState.assignments = [] := by
  decide

/-- C2 amended: for every non-empty store whose records all carry ids,
export produces a document holding exactly the store, and importing that
document into any session state succeeds, reproduces the same records
(same ids, same comments, same order) and sets the counter to max(id)+1
over those records; importing a document with an empty record list — which
export never produces — resets the counter to 1. -/
theorem export_import_round_trip (s t : SessionState) (now : Int)
    (ids : List Int) (hne : s.assignments ≠ [])
    (hids : idsOf s.assignments = some ids) :
    ∃ doc, exportSnapshot s now = some doc ∧
      doc.assignments = s.assignments ∧
      (importSnapshot (.records doc.assignments) t).2 = true ∧
      (importSnapshot (.records doc.assignments) t).1.assignments
        = s.assignments ∧
      (importSnapshot (.records doc.assignments) t).1.assignment_counter
        = pyMax ids + 1 ∧
      (importSnapshot (.records []) t)
        = ({ assignments := [], assignment_counter := 1 }, true) := by
  have he : s.assignments.isEmpty = false := by
    cases h : s.assignments with
    | nil => exact absurd h hne
    | cons a l => rfl
  refine ⟨{ assignments := s.assignments, export_date := now }, ?_, rfl, ?_, ?_, ?_, rfl⟩
  · unfold exportSnapshot
    rw [if_pos hne]
  · simp [importSnapshot, he, hids]
  · simp [importSnapshot, he, hids]
  · simp [importSnapshot, he, hids]

/-- C2 witness: the amended theorem applied at a concrete two-record store,
with the document imported into a fresh session. -/
theorem export_import_round_trip_witness :
    ∃ doc, exportSnapshot seededState 99 = some doc ∧
      doc.assignments = seededState.assignments ∧
      (importSnapshot (.records doc.assignments) initState).2 = true ∧
      (importSnapshot (.records doc.assignments) initState).1.assignments
        = seededState.assignments ∧
      (importSnapshot (.records doc.assignments) initState).1.assignment_counter
        = pyMax [1, 2] + 1 ∧
      (importSnapshot (.records []) initState)
        = ({ assignments := [], assignment_counter := 1 }, true) :=
  export_import_round_trip seededState initState 99 [1, 2] (by decide) (by decide)
